/-
  Verification of the `apirest` HTTP router package (Go) against its
  natural-language specification.

  Shallow embedding conventions:
  * A Go `string` is modelled as a `List Char` (`GoStr`); the Go standard
    library helpers used by the package (`strings.Split`, `strings.Join`,
    `strings.ToLower`, `strings.Trim`, `strings.Index`, `strconv.Itoa`,
    `strconv.FormatBool`) are modelled by executable functions below.
  * A Go `map` is modelled as an association list.  For the router's
    pattern table the order of the list stands for the (unspecified)
    iteration order of the Go map in `buscarPatronDeRuta`.
  * Pointer-based mutation (the endpoint's back pointer into its route
    detail) is modelled by explicit state passing: the CORS setters take
    the router and the canonical pattern that identifies the detail.
  * `os.Exit` in `finalizar` and the compiler's `error` returns are both
    modelled with `Except`.
-/
import Mathlib

namespace Apirest

/-- A Go string, modelled as its list of characters. -/
abbrev GoStr := List Char

/-! ### Go standard-library helpers -/

/-- `strings.Split(s, "/")`: the package only ever splits on `"/"`. -/
def stringsSplit (s : GoStr) : List GoStr :=
  s.splitOn '/'

/-- `strings.Join(elems, sep)`. -/
def stringsJoin (elems : List GoStr) (sep : GoStr) : GoStr :=
  List.intercalate sep elems

/-- `strings.ToLower(s)`. -/
def stringsToLower (s : GoStr) : GoStr :=
  s.map Char.toLower

/-- `strings.Trim(s, " ")`: remove leading and trailing spaces. -/
def stringsTrim (s : GoStr) : GoStr :=
  ((s.dropWhile (· == ' ')).reverse.dropWhile (· == ' ')).reverse

/-- `strings.Index(s, c)` for a one-character needle: byte index of the
first occurrence, `-1` when absent (character-level model). -/
def stringsIndex (s : GoStr) (c : Char) : Int :=
  match s.findIdx? (· == c) with
  | some n => (n : Int)
  | none => -1

/-- `strconv.FormatBool(b)`. -/
def strconvFormatBool (b : Bool) : GoStr :=
  if b then "true".toList else "false".toList

/-- `strconv.Itoa(i)` (Go `int` modelled as `Int`). -/
def strconvItoa (i : Int) : GoStr :=
  (toString i).toList

/-- View of `Except` as a sum, to derive decidable equality for it. -/
def exceptASuma {eps alfa : Type} : Except eps alfa → eps ⊕ alfa
  | .error e => .inl e
  | .ok a => .inr a

instance {eps alfa : Type} [DecidableEq eps] [DecidableEq alfa] :
    DecidableEq (Except eps alfa) := fun a b =>
  decidable_of_iff (exceptASuma a = exceptASuma b)
    (by cases a <;> cases b <;> simp [exceptASuma])

/-! ### Go maps as association lists -/

/-- Lookup in a Go map modelled as an association list
(`v, ok := m[k]` with `ok` = `isSome`). -/
def mapGet {β : Type} (m : List (GoStr × β)) (clave : GoStr) : Option β :=
  match m with
  | [] => none
  | (k, v) :: resto => if k = clave then some v else mapGet resto clave

/-- Assignment `m[k] = v` in a Go map modelled as an association list:
replace the binding when the key is present, append it otherwise. -/
def mapSet {β : Type} (m : List (GoStr × β)) (clave : GoStr) (valor : β) :
    List (GoStr × β) :=
  match m with
  | [] => [(clave, valor)]
  | (k, v) :: resto =>
      if k = clave then (clave, valor) :: resto else (k, v) :: mapSet resto clave valor

/-! ### errores.go: the chained error model -/

/-- `errorRastro`: the location where one error-chain node was created.
The values produced by `runtime.Caller` are opaque inputs of the model. -/
structure ErrorRastro where
  paquete : GoStr
  archivo : GoStr
  funcion : GoStr
  nroLinea : Int
  observaciones : GoStr
deriving DecidableEq

/-- A Go `error` value as seen by `errores.go`: either a value whose type
assertion `err.(*errorAPIREST)` fails (the nil error, or an error produced
by another package), or an `*errorAPIREST` node with its fields
(`estadoHTTP`, `codigo`, `mensaje`, `mensajeTecnico`, `valoresAdicionales`,
`uuid`, `errAnterior`, `rastro`). -/
inductive GoError where
  | noAPIREST : GoError
  | apirest (estadoHTTP : Int) (codigo mensaje mensajeTecnico : GoStr)
      (valoresAdicionales : List GoStr) (uuid : GoStr)
      (errAnterior : GoError) (rastro : ErrorRastro) : GoError
deriving DecidableEq

/-- `errorBuscarTipo`: walk the `errAnterior` chain and return the first
node whose `estadoHTTP` equals the requested one; the loop stops (with
`nil, false`) as soon as the type assertion fails. -/
def errorBuscarTipo : GoError → Int → Option GoError
  | .noAPIREST, _ => none
  | .apirest st c m mt va u prev r, estadoHTTP =>
      if st = estadoHTTP then some (.apirest st c m mt va u prev r)
      else errorBuscarTipo prev estadoHTTP

/-- `ErrorEsAPIREST`: walk the chain and return the first node whose
`estadoHTTP` is non-zero (a node with a kind set). -/
def ErrorEsAPIREST : GoError → Option GoError
  | .noAPIREST => none
  | .apirest st c m mt va u prev r =>
      if st ≠ 0 then some (.apirest st c m mt va u prev r)
      else ErrorEsAPIREST prev

/-- `ErrorObtenerRastros`: collect the `rastro` of every node of the
chain, newest first, stopping at the first non-`errorAPIREST` value. -/
def ErrorObtenerRastros : GoError → List ErrorRastro
  | .noAPIREST => []
  | .apirest _ _ _ _ _ _ prev r => r :: ErrorObtenerRastros prev

/-- `ErrorNuevoRastro(err)`: a bare trace wrapper — a fresh node whose only
populated fields are `errAnterior` and the captured `rastro`; its
`estadoHTTP` is the Go zero value `0` (no kind set). -/
def ErrorNuevoRastro (err : GoError) (rastro : ErrorRastro) : GoError :=
  .apirest 0 [] [] [] [] [] err rastro

/-- `errorNuevo(estadoHTTP, formato, args...)`: a fresh typed node with the
formatted message and the captured trace; `errAnterior` is nil. -/
def errorNuevo (estadoHTTP : Int) (mensaje : GoStr) (rastro : ErrorRastro) : GoError :=
  .apirest estadoHTTP [] mensaje [] [] [] .noAPIREST rastro

/-- `HTTPEstadoErrorNoEncontrado = 404`. -/
def HTTPEstadoErrorNoEncontrado : Int := 404

/-- `ErrorNuevoNoEncontrado`. -/
def ErrorNuevoNoEncontrado (mensaje : GoStr) (rastro : ErrorRastro) : GoError :=
  errorNuevo HTTPEstadoErrorNoEncontrado mensaje rastro

/-- `ErrorEsNoEncontrado`: the kind finder for the 404 kind. -/
def ErrorEsNoEncontrado (err : GoError) : Option GoError :=
  errorBuscarTipo err HTTPEstadoErrorNoEncontrado

/-! ### interceptores.go: middleware composition -/

/-- `interceptores.Ejecutar`: when the terminal handler is non-nil, the Go
loop applies `funciones[n-1-i]` for `i = 0, …, n-1`, i.e. the last
interceptor is applied first and the first one ends up outermost, which is
exactly a right fold; a nil terminal handler (`none`) skips the loop. -/
def Ejecutar {α : Type} (funciones : List (α → α)) (manejadorFunc : Option α) :
    Option α :=
  match manejadorFunc with
  | none => none
  | some h => some (funciones.foldr (fun f acc => f acc) h)

/-- An interceptor that records an enter marker, runs the next handler, and
records an exit marker — the instrumentation described by the spec's
composition test (a handler is modelled by the list of markers its
invocation produces). -/
def interceptorMarcado (nombre : String) : List String → List String :=
  fun siguiente => (nombre ++ "-enter") :: (siguiente ++ [nombre ++ "-exit"])

/-! ### main.go: string constants -/

/-- The reserved placeholder token `{v}` of canonical patterns. -/
def patronVariable : GoStr := ['{', 'v', '}']

/-- The path separator as a one-character string. -/
def barra : GoStr := ['/']

/-- The separator `", "` used when joining CORS header values. -/
def comaEspacio : GoStr := ", ".toList

def gGET : GoStr := "GET".toList

def gPOST : GoStr := "POST".toList

def gPUT : GoStr := "PUT".toList

def gPATCH : GoStr := "PATCH".toList

def gDELETE : GoStr := "DELETE".toList

def gOPTIONS : GoStr := "OPTIONS".toList

def corsAccessControlAllowOrigin : GoStr := "Access-Control-Allow-Origin".toList

def corsAccessControlAllowCredentials : GoStr := "Access-Control-Allow-Credentials".toList

def corsAccessControlMaxAge : GoStr := "Access-Control-Max-Age".toList

def corsAccessControlAllowMethods : GoStr := "Access-Control-Allow-Methods".toList

def corsAccessControlAllowHeaders : GoStr := "Access-Control-Allow-Headers".toList

def corsAccessControlExposeHeaders : GoStr := "Access-Control-Expose-Headers".toList

/-- Error message for an empty route template. -/
def errorRutaVacia : GoStr := "la ruta recibida está vacía".toList

/-- Error message for a placeholder segment with no variable name. -/
def errorParteSinNombre : GoStr :=
  "existe al menos una parte de la ruta que no contiene un nombre de variable".toList

/-- Error message for a placeholder segment without the closing brace. -/
def errorSinLlaveDeCierre : GoStr :=
  "el nombre de variable no contiene la llave de cierre".toList

def mensajeRecursoInexistente : GoStr := "Recurso inexistente".toList

def mensajeOPTIONSInactivo : GoStr :=
  "La aplicación no implementa el método OPTIONS (No se encuentra activa la opcion CORS)".toList

/-- `fmt.Sprintf("La ruta solicitada no implementa el método %v", metodo)`. -/
def mensajeMetodoNoImplementado (metodo : GoStr) : GoStr :=
  "La ruta solicitada no implementa el método ".toList ++ metodo

/-- `finalizar` message for a template that fails to compile. -/
def mensajeErrorPatron (metodo ruta err : GoStr) : GoStr :=
  "La ruta ingresada: [".toList ++ metodo ++ "] ".toList ++ ruta ++
    ", posee un error al intentar generar un patrón de ruta: ".toList ++ err

/-- `finalizar` message for mismatched variable names under one pattern. -/
def mensajeVariablesDistintas (pr : GoStr) : GoStr :=
  "Existe un patrón de ruta: ".toList ++ pr ++
    ", que contiene endpoints con distintos nombres de variables".toList

/-- `finalizar` message for a duplicate method on one pattern. -/
def mensajeEndpointDuplicado (metodo ruta : GoStr) : GoStr :=
  "La ruta ingresada: [".toList ++ metodo ++ "] ".toList ++ ruta ++
    ", ya posee un endpoint creado con el mismo método".toList

def asterisco : GoStr := "*".toList

/-! ### main.go: data model

The handler type `ManejadorFunc` is opaque to the router, so the model is
parameterised by a type `H` of handler functions.  An `endpoint` is its
handler function; its back pointer into the owning detail is replaced by
explicit state passing (the CORS setters receive the router and the
canonical pattern). -/

/-- `variableDePatronDeRuta`: position and name of one variable part. -/
structure VariableDePatronDeRuta where
  posicion : Nat
  nombre : GoStr
deriving DecidableEq

/-- The `cors` aggregate stored in each `patronDeRutaDetalle`. -/
structure CORSDePatron where
  metodosPermitidos : List GoStr
  camposRequeridos : List GoStr
  camposExpuestos : List GoStr
deriving DecidableEq

/-- `patronDeRutaDetalle`: per-pattern CORS aggregates, the method →
endpoint map and the variable list. -/
structure PatronDeRutaDetalle (H : Type) where
  cors : CORSDePatron
  endpoints : List (GoStr × H)
  variablesDeRuta : List VariableDePatronDeRuta
deriving DecidableEq

/-- The router-wide `cors` configuration. -/
structure CORSGlobal where
  esActivo : Bool
  origenes : List GoStr
  credenciales : Bool
  duracion : Int
deriving DecidableEq

/-- `enrutador`: global CORS configuration plus the pattern table.  The Go
map `patronesDeRutas` is an association list here; its order stands for
the map's (unspecified) iteration order. -/
structure Enrutador (H : Type) where
  cors : CORSGlobal
  patronesDeRutas : List (GoStr × PatronDeRutaDetalle H)
deriving DecidableEq

/-- `CrearEnrutador`: empty table, CORS off, origins `*`, no credentials,
max-age `-1`. -/
def CrearEnrutador (H : Type) : Enrutador H :=
  { cors := { esActivo := false, origenes := [asterisco], credenciales := false, duracion := -1 },
    patronesDeRutas := [] }

/-! ### main.go: the pattern compiler (`rutaAPatronDeRuta`) -/

/-- `if partes[0] == "" { partes = partes[1:] }`. -/
def quitarPrimeroVacio (partes : List GoStr) : List GoStr :=
  if partes.head? = some [] then partes.tail else partes

/-- `if partes[len-1] == "" { partes = partes[:len-1] }`. -/
def quitarUltimoVacio (partes : List GoStr) : List GoStr :=
  if partes.getLast? = some [] then partes.dropLast else partes

/-- The two conditional slices dropping one leading and one trailing
empty segment, shared by the compiler and the matcher. -/
def recortarPartes (partes : List GoStr) : List GoStr :=
  quitarUltimoVacio (quitarPrimeroVacio partes)

/-- The loop body of `rutaAPatronDeRuta`: each segment is lower-cased and
trimmed; a segment without `{` is a literal; a segment with `{` of length
2 is the missing-name error; one without `}` is the unterminated error;
otherwise it becomes the placeholder token and a variable binding
`{pos, p[1:len(p)-1]}`.  `pos` is the segment's index in the trimmed list. -/
def compilarPartes : List GoStr → Nat → Except GoStr (List GoStr × List VariableDePatronDeRuta)
  | [], _ => .ok ([], [])
  | parte :: resto, pos =>
      let p := stringsToLower (stringsTrim parte)
      if p.contains '{' = false then
        match compilarPartes resto (pos + 1) with
        | .error e => .error e
        | .ok (partes, vars) => .ok (p :: partes, vars)
      else if p.length = 2 then .error errorParteSinNombre
      else if p.contains '}' = false then .error errorSinLlaveDeCierre
      else
        match compilarPartes resto (pos + 1) with
        | .error e => .error e
        | .ok (partes, vars) =>
            .ok (patronVariable :: partes,
              { posicion := pos, nombre := p.tail.dropLast } :: vars)

/-- `rutaAPatronDeRuta`: split on `/`, drop one leading and one trailing
empty segment, compile the segments, and rebuild the canonical pattern as
`"/" + strings.Join(partes, "/")`. -/
def rutaAPatronDeRuta (s : GoStr) :
    Except GoStr (GoStr × List VariableDePatronDeRuta) :=
  if s = [] then .error errorRutaVacia
  else
    match compilarPartes (recortarPartes (stringsSplit s)) 0 with
    | .error e => .error e
    | .ok (partes, vars) => .ok ('/' :: stringsJoin partes barra, vars)

/-! ### main.go: the matcher (`buscarPatronDeRuta`) -/

/-- One iteration of the matcher's segment `switch`: the segments match
when they are equal, or when the pattern segment is the placeholder token
and they differ. -/
def parteCoincide (partePatronActual parteRutaRecibida : GoStr) : Bool :=
  if partePatronActual == parteRutaRecibida then true
  else if partePatronActual == patronVariable && partePatronActual != parteRutaRecibida then true
  else false

/-- The matcher's inner loop over the segments of one candidate pattern
(run under equal segment counts; `encontrado` stays true iff every
position matches). -/
def coincidenPartes (partesPatron partesRuta : List GoStr) : Bool :=
  (partesPatron.zip partesRuta).all (fun par => parteCoincide par.1 par.2)

/-- On a full match, build the variable map: for each recorded binding,
`variables[nombre] = partesRutaRecibida[posicion]`. -/
def construirVariables (variablesDeRuta : List VariableDePatronDeRuta)
    (partesRuta : List GoStr) : List (GoStr × GoStr) :=
  variablesDeRuta.foldl (fun m v => mapSet m v.nombre (partesRuta.getD v.posicion [])) []

/-- The matcher's scan over the pattern table, in the given iteration
order: skip candidates with a different segment count, return the first
candidate all of whose segments match.  A candidate's segments are
`strings.Split(pr, "/")[1:]`. -/
def buscarEnLista {H : Type} :
    List (GoStr × PatronDeRutaDetalle H) → List GoStr →
      Option (PatronDeRutaDetalle H × List (GoStr × GoStr))
  | [], _ => none
  | (pr, detalle) :: resto, partesRutaRecibida =>
      let partesPatronDeRuta := (stringsSplit pr).tail
      if (partesRutaRecibida.length == partesPatronDeRuta.length) &&
          coincidenPartes partesPatronDeRuta partesRutaRecibida then
        some (detalle, construirVariables detalle.variablesDeRuta partesRutaRecibida)
      else
        buscarEnLista resto partesRutaRecibida

/-- `buscarPatronDeRuta`: normalise the received path and scan the table. -/
def buscarPatronDeRuta {H : Type} (patrones : List (GoStr × PatronDeRutaDetalle H))
    (rutaRecibida : GoStr) :
    Option (PatronDeRutaDetalle H × List (GoStr × GoStr)) :=
  buscarEnLista patrones (recortarPartes (stringsSplit rutaRecibida))

/-! ### main.go: registration (`nuevoEndpoint`) and the CORS setters -/

/-- `nuevoEndpoint`: compile the template; on a fresh pattern create the
detail (methods `[metodo]`, the single endpoint, the variable list); on an
existing pattern check that variable names coincide and that the method is
not yet registered, then append the method and the endpoint.  The Go
`finalizar` (process exit) is modelled as `Except.error`. -/
def nuevoEndpoint {H : Type} (o : Enrutador H) (metodo ruta : GoStr) (funcion : H) :
    Except GoStr (Enrutador H) :=
  match rutaAPatronDeRuta ruta with
  | .error err => .error (mensajeErrorPatron metodo ruta err)
  | .ok (pr, vars) =>
      match mapGet o.patronesDeRutas pr with
      | none =>
          let detalle : PatronDeRutaDetalle H :=
            { cors := { metodosPermitidos := [metodo], camposRequeridos := [], camposExpuestos := [] },
              endpoints := mapSet [] metodo funcion,
              variablesDeRuta := vars }
          .ok { o with patronesDeRutas := mapSet o.patronesDeRutas pr detalle }
      | some detalle =>
          -- Go iterates over the indices of `detalle.variablesDeRuta`; both lists
          -- come from the same canonical pattern, so they have equal length
          -- and the zip walks exactly the same pairs.
          if (detalle.variablesDeRuta.zip vars).any (fun par => par.1.nombre != par.2.nombre) then
            .error (mensajeVariablesDistintas pr)
          else if (mapGet detalle.endpoints metodo).isSome then
            .error (mensajeEndpointDuplicado metodo ruta)
          else
            let detalleNuevo : PatronDeRutaDetalle H :=
              { detalle with
                  cors := { detalle.cors with
                    metodosPermitidos := detalle.cors.metodosPermitidos ++ [metodo] },
                  endpoints := mapSet detalle.endpoints metodo funcion }
            .ok { o with patronesDeRutas := mapSet o.patronesDeRutas pr detalleNuevo }

def GET {H : Type} (o : Enrutador H) (ruta : GoStr) (funcion : H) :
    Except GoStr (Enrutador H) := nuevoEndpoint o gGET ruta funcion

def POST {H : Type} (o : Enrutador H) (ruta : GoStr) (funcion : H) :
    Except GoStr (Enrutador H) := nuevoEndpoint o gPOST ruta funcion

/-- Scenario helper for concrete routers in the theorems below: a
registration that is known to succeed (`nuevoEndpoint` returns `.ok`);
on the fail-fast case it leaves the router unchanged. -/
def registrar {H : Type} (o : Enrutador H) (metodo ruta : GoStr) (funcion : H) :
    Enrutador H :=
  match nuevoEndpoint o metodo ruta funcion with
  | .ok o' => o'
  | .error _ => o

/-- `CORSActivar`. -/
def CORSActivar {H : Type} (o : Enrutador H) : Enrutador H :=
  { o with cors := { o.cors with esActivo := true } }

/-- `CORSOrigenes`. -/
def CORSOrigenes {H : Type} (o : Enrutador H) (origenes : List GoStr) : Enrutador H :=
  { o with cors := { o.cors with origenes := origenes } }

/-- The body of the loop of `endpoint.CORSCamposRequeridos` /
`CORSCamposExpuestos`: append the field unless an existing field is equal
up to `strings.Trim(strings.ToLower(·), " ")`. -/
def agregarCampoCORS (lista : List GoStr) (campo : GoStr) : List GoStr :=
  if lista.any (fun campoExistente =>
      stringsTrim (stringsToLower campo) == stringsTrim (stringsToLower campoExistente)) then
    lista
  else
    lista ++ [campo]

/-- The full loop of the CORS field setters over the supplied fields. -/
def corsAgregarCampos (lista : List GoStr) (campos : List GoStr) : List GoStr :=
  campos.foldl agregarCampoCORS lista

/-- `endpoint.CORSCamposRequeridos`, with the endpoint's back pointer
replaced by the canonical pattern that identifies its detail. -/
def CORSCamposRequeridos {H : Type} (o : Enrutador H) (pr : GoStr)
    (campos : List GoStr) : Enrutador H :=
  match mapGet o.patronesDeRutas pr with
  | none => o
  | some detalle =>
      let detalleNuevo : PatronDeRutaDetalle H :=
        { detalle with cors := { detalle.cors with
            camposRequeridos := corsAgregarCampos detalle.cors.camposRequeridos campos } }
      { o with patronesDeRutas := mapSet o.patronesDeRutas pr detalleNuevo }

/-- `endpoint.CORSCamposExpuestos`, modelled like `CORSCamposRequeridos`. -/
def CORSCamposExpuestos {H : Type} (o : Enrutador H) (pr : GoStr)
    (campos : List GoStr) : Enrutador H :=
  match mapGet o.patronesDeRutas pr with
  | none => o
  | some detalle =>
      let detalleNuevo : PatronDeRutaDetalle H :=
        { detalle with cors := { detalle.cors with
            camposExpuestos := corsAgregarCampos detalle.cors.camposExpuestos campos } }
      { o with patronesDeRutas := mapSet o.patronesDeRutas pr detalleNuevo }

/-! ### main.go: the dispatcher (`enrutador.ServeHTTP`) -/

/-- The observable outcome of one dispatch: an `http.Error` write, the
`204` preflight answer with its header fields, or the invocation of the
matched endpoint's handler with the context values the dispatcher
attached (the CORS header map when CORS is active, and the variable map —
an empty list stands for a context without the entry, which is how
`ObtenerVariablesDeRuta` / `ObtenerCORS` read it back). -/
inductive Respuesta (H : Type) where
  | httpError (mensaje : GoStr) (estado : Nat) : Respuesta H
  | sinContenido (cabeceras : List (GoStr × GoStr)) (estado : Nat) : Respuesta H
  | invocarFuncion (funcion : H) (cabecerasCORS : List (GoStr × GoStr))
      (variablesDeRuta : List (GoStr × GoStr)) : Respuesta H
deriving DecidableEq

/-- Query-string stripping at the top of `ServeHTTP`:
`pos := strings.Index(ruta, "?"); if pos > 0 { ruta = ruta[:pos] }`. -/
def rutaSinConsulta (requestURI : GoStr) : GoStr :=
  let pos := stringsIndex requestURI '?'
  if pos > 0 then requestURI.take pos.toNat else requestURI

/-- The six CORS header fields `ServeHTTP` emits, both on the `OPTIONS`
branch and into the request context: global origins, credentials and
max-age, and the pattern's aggregated methods, required fields and
exposed fields, joined with `", "`. -/
def seisCabecerasCORS {H : Type} (o : Enrutador H) (detalle : PatronDeRutaDetalle H) :
    List (GoStr × GoStr) :=
  [(corsAccessControlAllowOrigin, stringsJoin o.cors.origenes comaEspacio),
   (corsAccessControlAllowCredentials, strconvFormatBool o.cors.credenciales),
   (corsAccessControlMaxAge, strconvItoa o.cors.duracion),
   (corsAccessControlAllowMethods, stringsJoin detalle.cors.metodosPermitidos comaEspacio),
   (corsAccessControlAllowHeaders, stringsJoin detalle.cors.camposRequeridos comaEspacio),
   (corsAccessControlExposeHeaders, stringsJoin detalle.cors.camposExpuestos comaEspacio)]

/-- `enrutador.ServeHTTP`: strip the query string, look the path up; no
match is a 404; `OPTIONS` answers 404 with CORS off and 204 with the six
header fields with CORS on; any other method is dispatched to the
registered endpoint, or answers 404 naming the method when none is
registered under the pattern. -/
def ServeHTTP {H : Type} (o : Enrutador H) (metodo requestURI : GoStr) : Respuesta H :=
  match buscarPatronDeRuta o.patronesDeRutas (rutaSinConsulta requestURI) with
  | none => .httpError mensajeRecursoInexistente 404
  | some (detalle, vars) =>
      if metodo == gOPTIONS then
        if o.cors.esActivo = false then
          .httpError mensajeOPTIONSInactivo 404
        else
          .sinContenido (seisCabecerasCORS o detalle) 204
      else
        match mapGet detalle.endpoints metodo with
        | none => .httpError (mensajeMetodoNoImplementado metodo) 404
        | some funcion =>
            .invocarFuncion funcion
              (if o.cors.esActivo then seisCabecerasCORS o detalle else [])
              vars

/-! ### Concrete scenarios used by the theorems -/

def rutaItems : GoStr := "/items".toList

def plantillaItemsId : GoStr := "/items/{id}".toList

def rutaItemsCreate : GoStr := "/items/create".toList

def nombreId : GoStr := "id".toList

def valorCreate : GoStr := "create".toList

def plantillaItemsIdMayuscula : GoStr := "/Items/{id}".toList

def patronItemsV : GoStr := "/items/{v}".toList

def rutaItemsCincoMayuscula : GoStr := "/Items/5".toList

def valorCinco : GoStr := "5".toList

def plantillaAX : GoStr := "/a/{x}".toList

def rutaASegmentoVacio : GoStr := "/a//".toList

def nombreX : GoStr := "x".toList

def rutaThings : GoStr := "/things".toList

def campoXFoo : GoStr := "X-Foo".toList

def campoXFooMinuscula : GoStr := "x-foo".toList

def campoXBar : GoStr := "X-Bar".toList

def plantillaXSinNombre : GoStr := "/x/".toList ++ ['{', '}']

def plantillaXSinCierre : GoStr := "/x/".toList ++ ['{', 'i', 'd']

def plantillaXLlaveA : GoStr := "/x/".toList ++ ['{', 'a']

def segmentoLlaveA : GoStr := ['{', 'a']

def segmentoLlaveId : GoStr := ['{', 'i', 'd']

def textoFalse : GoStr := "false".toList

def textoMenosUno : GoStr := "-1".toList

/-- Router with `/items/{id}` and `/items/create` registered, the variable
pattern sitting first in the table's iteration order. -/
def enrutadorVariablePrimero : Enrutador Nat :=
  registrar (registrar (CrearEnrutador Nat) gGET plantillaItemsId 1) gGET rutaItemsCreate 2

/-- The same two patterns with the literal pattern first in the table's
iteration order. -/
def enrutadorLiteralPrimero : Enrutador Nat :=
  registrar (registrar (CrearEnrutador Nat) gGET rutaItemsCreate 2) gGET plantillaItemsId 1

/-- Router with a single `GET /items` endpoint. -/
def enrutadorSoloGet : Enrutador Nat :=
  registrar (CrearEnrutador Nat) gGET rutaItems 1

/-- The route detail `enrutadorSoloGet` stores for `/items`. -/
def detalleSoloGet : PatronDeRutaDetalle Nat :=
  { cors := { metodosPermitidos := [gGET], camposRequeridos := [], camposExpuestos := [] },
    endpoints := [(gGET, 1)],
    variablesDeRuta := [] }

/-- Router with `GET /Items/{id}` registered (an upper-case literal in the
template). -/
def enrutadorMayusculas : Enrutador Nat :=
  registrar (CrearEnrutador Nat) gGET plantillaItemsIdMayuscula 1

/-- Router with `GET /a/{x}` registered. -/
def enrutadorAX : Enrutador Nat :=
  registrar (CrearEnrutador Nat) gGET plantillaAX 1

/-- The CORS aggregation scenario: `GET /things` with required header
`X-Foo`, then `POST /things` with required headers `x-foo`, `X-Bar`. -/
def enrutadorThings : Enrutador Nat :=
  CORSCamposRequeridos
    (registrar
      (CORSCamposRequeridos (registrar (CrearEnrutador Nat) gGET rutaThings 1)
        rutaThings [campoXFoo])
      gPOST rutaThings 2)
    rutaThings [campoXFooMinuscula, campoXBar]

/-! ### C4 — interceptor composition -/

def marcaEntrar : String := "-enter"

def marcaSalir : String := "-exit"

def letraA : String := "A"

def letraB : String := "B"

def letraH : String := "H"

/-! ### C8 — CORS aggregation per pattern -/

/-- The normalisation `strings.Trim(strings.ToLower(campo), " ")` under
which the CORS field setters deduplicate. -/
def campoNormalizado (campo : GoStr) : GoStr :=
  stringsTrim (stringsToLower campo)

/-- Membership in a CORS field list up to `campoNormalizado`. -/
def contieneCampo (lista : List GoStr) (campo : GoStr) : Bool :=
  lista.any (fun campoExistente => campoNormalizado campo == campoNormalizado campoExistente)

/-! ### C3 — compile, register, substitute, match -/

/-- The compiled form of one template segment: the canonical-pattern
segment `rutaAPatronDeRuta` produces for it. -/
def parteCompilada (parte : GoStr) : GoStr :=
  if (stringsToLower (stringsTrim parte)).contains '{' then patronVariable
  else stringsToLower (stringsTrim parte)

/-- The variable name `rutaAPatronDeRuta` records for a placeholder
segment (`p[1:len(p)-1]` of the lower-cased, trimmed segment). -/
def nombreDeParte (parte : GoStr) : GoStr :=
  (stringsToLower (stringsTrim parte)).tail.dropLast

/-- Modelled from the spec: substituting values for the placeholders of a
template — a placeholder segment is replaced by the value assigned to its
variable name, every other segment is kept as written. -/
def sustituirParte (σ : GoStr → GoStr) (parte : GoStr) : GoStr :=
  if (stringsToLower (stringsTrim parte)).contains '{' then σ (nombreDeParte parte)
  else parte

/-- Modelled from the spec: the request path obtained from a template by
substituting values for its placeholders, segment by segment. -/
def sustituirRuta (s : GoStr) (σ : GoStr → GoStr) : GoStr :=
  stringsJoin ((stringsSplit s).map (sustituirParte σ)) barra

def detalleFresco {H : Type} (metodo : GoStr) (funcion : H)
    (vars : List VariableDePatronDeRuta) : PatronDeRutaDetalle H :=
  { cors := { metodosPermitidos := [metodo], camposRequeridos := [], camposExpuestos := [] },
    endpoints := [(metodo, funcion)],
    variablesDeRuta := vars }

theorem mapGet_mapSet_self {β : Type} (m : List (GoStr × β)) (k : GoStr) (v : β) :
    mapGet (mapSet m k v) k = some v := by
  induction m with
  | nil => simp [mapGet, mapSet]
  | cons par resto ih =>
      by_cases h : par.1 = k
      · simp [mapSet, h, mapGet]
      · simp [mapSet, h, mapGet, ih]

theorem mapGet_mapSet_of_ne {β : Type} (m : List (GoStr × β)) (k k' : GoStr) (v : β)
    (h : k' ≠ k) : mapGet (mapSet m k v) k' = mapGet m k' := by
  have hne : ¬ k = k' := fun hk => h hk.symm
  induction m with
  | nil => simp [mapGet, mapSet, hne]
  | cons par resto ih =>
      obtain ⟨k0, v0⟩ := par
      by_cases hk : k0 = k
      · simp [mapSet, hk, mapGet, hne]
      · simp [mapSet, hk, mapGet, ih]

/-! ### C1 — ambiguous match resolution -/

/-- C1: the claim states that when several same-length patterns match, the
matcher deterministically prefers the one with more literal segments
(so `/items/create` always beats `/items/{id}`), regardless of
registration or iteration order.  The code instead returns the first
match found while ranging over the unordered Go map `patronesDeRutas`:
with the variable pattern first in the iteration order the request
`/items/create` is answered by `/items/{id}`'s endpoint (handler 1, with
`id ↦ create` extracted), and with the literal pattern first by
`/items/create`'s endpoint (handler 2, no variables) — the outcome
depends on the iteration order, refuting the claimed precedence rule. -/
theorem c1_coincidencia_depende_del_orden_de_iteracion :
    (buscarPatronDeRuta enrutadorVariablePrimero.patronesDeRutas rutaItemsCreate).map
        (fun res => (res.1.endpoints, res.2)) =
      some ([(gGET, 1)], [(nombreId, valorCreate)]) ∧
    (buscarPatronDeRuta enrutadorLiteralPrimero.patronesDeRutas rutaItemsCreate).map
        (fun res => (res.1.endpoints, res.2)) =
      some ([(gGET, 2)], []) := by
  constructor <;> decide

/-! ### C2 — no endpoint for the request's method -/

/-- C2 (amended): when the path matches a pattern but the method (not
`OPTIONS`) has no endpoint under it, `ServeHTTP` answers status 404 with
a message naming only the requested method; it does not produce a 405
and does not carry the list of registered methods. -/
theorem c2_metodo_sin_endpoint_responde_404 {H : Type} (o : Enrutador H)
    (metodo requestURI : GoStr) (detalle : PatronDeRutaDetalle H)
    (vars : List (GoStr × GoStr))
    (hmatch : buscarPatronDeRuta o.patronesDeRutas (rutaSinConsulta requestURI) =
      some (detalle, vars))
    (hmetodo : metodo ≠ gOPTIONS)
    (hfalta : mapGet detalle.endpoints metodo = none) :
    ServeHTTP o metodo requestURI = .httpError (mensajeMetodoNoImplementado metodo) 404 := by
  simp [ServeHTTP, hmatch, hfalta, hmetodo]

/-- C2 witness: `POST /items` on a router that only registers
`GET /items` hits the amended theorem's conclusion. -/
theorem c2_testigo_metodo_sin_endpoint :
    ServeHTTP enrutadorSoloGet gPOST rutaItems =
      .httpError (mensajeMetodoNoImplementado gPOST) 404 :=
  c2_metodo_sin_endpoint_responde_404 enrutadorSoloGet gPOST rutaItems detalleSoloGet []
    (by decide) (by decide) (by decide)

/-- C2 counterexample: the claim asks for a method-not-allowed error
carrying the methods registered for the pattern (suitable for a 405).
With only `GET /items` registered, dispatching `POST /items` produces an
`http.Error` write with status 404 — not 405 — and its message does not
even mention the registered method `GET`. -/
theorem c2_contraejemplo_metodo_no_permitido :
    ServeHTTP enrutadorSoloGet gPOST rutaItems =
      .httpError (mensajeMetodoNoImplementado gPOST) 404 ∧
    ¬ gGET <:+: mensajeMetodoNoImplementado gPOST := by
  constructor <;> decide

/-- C4: for every interceptor list `[f1, f2, f3]` and non-nil terminal
handler `h`, `Ejecutar` composes `f1 (f2 (f3 h))` — `f1` outermost — and
with marker-recording interceptors `A`, `B` around terminal `H` the
invocation order is `A-enter, B-enter, H, B-exit, A-exit`. -/
theorem c4_composicion_interceptores :
    (∀ (α : Type) (f1 f2 f3 : α → α) (h : α),
        Ejecutar [f1, f2, f3] (some h) = some (f1 (f2 (f3 h)))) ∧
    Ejecutar [interceptorMarcado letraA, interceptorMarcado letraB] (some [letraH]) =
      some [letraA ++ marcaEntrar, letraB ++ marcaEntrar, letraH,
        letraB ++ marcaSalir, letraA ++ marcaSalir] := by
  exact ⟨fun α f1 f2 f3 h => rfl, rfl⟩

/-! ### C5 — the error chain -/

/-- C5: wrapping a `NotFound` (404) error in two bare trace layers, the
404 kind-finder returns the original node, the trace collector returns
the three traces newest to oldest, and the status classifier
(`ErrorEsAPIREST`) skips the two kind-less wrappers and returns the
original node while their traces still appear in the collected list. -/
theorem c5_cadena_de_errores (mensaje : GoStr) (r1 r2 r3 : ErrorRastro) :
    ErrorEsNoEncontrado
        (ErrorNuevoRastro (ErrorNuevoRastro (ErrorNuevoNoEncontrado mensaje r1) r2) r3) =
      some (ErrorNuevoNoEncontrado mensaje r1) ∧
    ErrorObtenerRastros
        (ErrorNuevoRastro (ErrorNuevoRastro (ErrorNuevoNoEncontrado mensaje r1) r2) r3) =
      [r3, r2, r1] ∧
    ErrorEsAPIREST
        (ErrorNuevoRastro (ErrorNuevoRastro (ErrorNuevoNoEncontrado mensaje r1) r2) r3) =
      some (ErrorNuevoNoEncontrado mensaje r1) :=
  ⟨rfl, rfl, rfl⟩

/-! ### C6 — the compiler's malformed-template errors -/

/-- C6 (amended): the compiler rejects the empty template with the
empty-route error; a (lower-cased, trimmed) segment containing `{` whose
length is exactly 2 fails with the missing-name error — this covers `{}`
but also `{a` — and a longer segment containing `{` but no `}` fails with
the unterminated-variable error; in particular `/x/{}` fails with the
missing-name error and `/x/{id` with the unterminated-variable error. -/
theorem c6_errores_del_compilador :
    rutaAPatronDeRuta [] = .error errorRutaVacia ∧
    rutaAPatronDeRuta plantillaXSinNombre = .error errorParteSinNombre ∧
    rutaAPatronDeRuta plantillaXSinCierre = .error errorSinLlaveDeCierre ∧
    (∀ (parte : GoStr) (resto : List GoStr) (pos : Nat),
        (stringsToLower (stringsTrim parte)).contains '{' = true →
        (stringsToLower (stringsTrim parte)).length = 2 →
        compilarPartes (parte :: resto) pos = .error errorParteSinNombre) ∧
    (∀ (parte : GoStr) (resto : List GoStr) (pos : Nat),
        (stringsToLower (stringsTrim parte)).contains '{' = true →
        (stringsToLower (stringsTrim parte)).length ≠ 2 →
        (stringsToLower (stringsTrim parte)).contains '}' = false →
        compilarPartes (parte :: resto) pos = .error errorSinLlaveDeCierre) := by
  refine ⟨by decide, by decide, by decide, ?_, ?_⟩
  · intro parte resto pos h1 h2
    have h1' : '{' ∈ stringsToLower (stringsTrim parte) := by simpa using h1
    simp [compilarPartes, h1', h2]
  · intro parte resto pos h1 h2 h3
    have h1' : '{' ∈ stringsToLower (stringsTrim parte) := by simpa using h1
    have h3' : '}' ∉ stringsToLower (stringsTrim parte) := by simpa using h3
    simp [compilarPartes, h1', h2, h3']

/-- C6 witness: the per-segment clauses evaluated at `{a` (missing-name,
despite having no closing brace) and `{id` (unterminated). -/
theorem c6_testigo_clasificacion :
    compilarPartes [segmentoLlaveA] 0 = .error errorParteSinNombre ∧
    compilarPartes [segmentoLlaveId] 0 = .error errorSinLlaveDeCierre :=
  ⟨c6_errores_del_compilador.2.2.2.1 segmentoLlaveA [] 0 (by decide) (by decide),
   c6_errores_del_compilador.2.2.2.2 segmentoLlaveId [] 0 (by decide) (by decide) (by decide)⟩

/-- C6 counterexample: the claim says a segment containing `{` without a
closing `}` fails with the unterminated-variable error, but `/x/{a`
(segment of length 2) fails with the missing-name error instead — the
length-2 check runs before the closing-brace check. -/
theorem c6_contraejemplo_llave_sin_cierre :
    rutaAPatronDeRuta plantillaXLlaveA = .error errorParteSinNombre ∧
    errorParteSinNombre ≠ errorSinLlaveDeCierre := by
  constructor <;> decide

/-! ### C7 — the OPTIONS preflight answer -/

/-- C7: for every `OPTIONS` request whose path matches a registered
pattern, `ServeHTTP` answers 404 when the global CORS toggle is off, and
204 with the six CORS header fields — global origins, credentials flag
and max-age merged with the pattern's aggregated methods, required
fields and exposed fields, the lists joined with `", "` — when it is on. -/
theorem c7_preflight_options {H : Type} (o : Enrutador H) (requestURI : GoStr)
    (detalle : PatronDeRutaDetalle H) (vars : List (GoStr × GoStr))
    (hmatch : buscarPatronDeRuta o.patronesDeRutas (rutaSinConsulta requestURI) =
      some (detalle, vars)) :
    (o.cors.esActivo = false →
      ServeHTTP o gOPTIONS requestURI = .httpError mensajeOPTIONSInactivo 404) ∧
    (o.cors.esActivo = true →
      ServeHTTP o gOPTIONS requestURI = .sinContenido
        [(corsAccessControlAllowOrigin, stringsJoin o.cors.origenes comaEspacio),
         (corsAccessControlAllowCredentials, strconvFormatBool o.cors.credenciales),
         (corsAccessControlMaxAge, strconvItoa o.cors.duracion),
         (corsAccessControlAllowMethods, stringsJoin detalle.cors.metodosPermitidos comaEspacio),
         (corsAccessControlAllowHeaders, stringsJoin detalle.cors.camposRequeridos comaEspacio),
         (corsAccessControlExposeHeaders, stringsJoin detalle.cors.camposExpuestos comaEspacio)]
        204) := by
  constructor <;> intro hcors <;> simp [ServeHTTP, hmatch, hcors, seisCabecerasCORS]

/-- C7 witness: `OPTIONS /items` against the one-endpoint router, once
with CORS activated (204 plus the six populated header fields) and once
with the default configuration (404). -/
theorem c7_testigo_preflight :
    ServeHTTP (CORSActivar enrutadorSoloGet) gOPTIONS rutaItems =
      .sinContenido
        [(corsAccessControlAllowOrigin, asterisco),
         (corsAccessControlAllowCredentials, textoFalse),
         (corsAccessControlMaxAge, textoMenosUno),
         (corsAccessControlAllowMethods, gGET),
         (corsAccessControlAllowHeaders, []),
         (corsAccessControlExposeHeaders, [])]
        204 ∧
    ServeHTTP enrutadorSoloGet gOPTIONS rutaItems =
      .httpError mensajeOPTIONSInactivo 404 :=
  ⟨(((c7_preflight_options (CORSActivar enrutadorSoloGet) rutaItems detalleSoloGet []
      (by decide)).2) rfl).trans (by decide),
   ((c7_preflight_options enrutadorSoloGet rutaItems detalleSoloGet []
      (by decide)).1) rfl⟩

theorem contieneCampo_agregarCampoCORS (lista : List GoStr) (x c : GoStr) :
    contieneCampo (agregarCampoCORS lista x) c =
      (contieneCampo lista c || (campoNormalizado c == campoNormalizado x)) := by
  rw [show agregarCampoCORS lista x =
    if contieneCampo lista x then lista else lista ++ [x] from rfl]
  by_cases hx : contieneCampo lista x
  · rw [if_pos hx]
    cases hcx : (campoNormalizado c == campoNormalizado x) with
    | false => simp
    | true =>
        have hc : contieneCampo lista c = true := by
          rcases List.any_eq_true.mp hx with ⟨e, he, hxe⟩
          refine List.any_eq_true.mpr ⟨e, he, ?_⟩
          rw [beq_iff_eq] at hxe hcx ⊢
          rw [hcx, hxe]
        simp [hc]
  · rw [if_neg hx]
    simp [contieneCampo]

theorem contieneCampo_corsAgregarCampos (campos lista : List GoStr) (c : GoStr) :
    contieneCampo (corsAgregarCampos lista campos) c =
      (contieneCampo lista c || contieneCampo campos c) := by
  induction campos generalizing lista with
  | nil => simp [corsAgregarCampos, contieneCampo]
  | cons x resto ih =>
      rw [show corsAgregarCampos lista (x :: resto) =
        corsAgregarCampos (agregarCampoCORS lista x) resto from rfl]
      rw [ih, contieneCampo_agregarCampoCORS]
      rw [show contieneCampo (x :: resto) c =
        ((campoNormalizado c == campoNormalizado x) || contieneCampo resto c) from by
          simp [contieneCampo]]
      rw [Bool.or_assoc]

/-- C8: the per-pattern CORS aggregates are unions — a header belongs to
the aggregated required-field list exactly when some setter call declared
it (up to the case-insensitive, trimmed normalisation under which the
setter deduplicates), and the allowed-method list collects the registered
methods.  In particular, registering `GET /things` with required header
`X-Foo` and `POST /things` with required headers `x-foo`, `X-Bar` yields
exactly the methods `GET, POST` and the required headers `X-Foo, X-Bar`
(the spelling of the first declaration wins, `x-foo` being dropped as a
case-insensitive duplicate). -/
theorem c8_agregacion_cors :
    (∀ (lista campos : List GoStr) (campo : GoStr),
        contieneCampo (corsAgregarCampos lista campos) campo =
          (contieneCampo lista campo || contieneCampo campos campo)) ∧
    (mapGet enrutadorThings.patronesDeRutas rutaThings).map
        (fun detalle => (detalle.cors.metodosPermitidos, detalle.cors.camposRequeridos)) =
      some ([gGET, gPOST], [campoXFoo, campoXBar]) :=
  ⟨fun lista campos campo => contieneCampo_corsAgregarCampos campos lista campo, by decide⟩

/-! ### C9 — what the placeholder token matches -/

/-- C9 (amended): in the matcher's segment comparison the placeholder
token `{v}` matches every request segment, the empty segment included
(the two `switch` cases cover the equal and the different segment, so no
segment is rejected). -/
theorem c9_variable_acepta_todo_segmento :
    ∀ (parteRutaRecibida : GoStr), parteCoincide patronVariable parteRutaRecibida = true := by
  intro parte
  by_cases h : patronVariable = parte <;> simp [parteCoincide, h]

/-- C9 counterexample: the claim says an empty request segment at a
placeholder position does not produce a match, but with `GET /a/{x}`
registered the request path `/a//` (whose normalised segments are
`a` and the empty segment) does match, binding `x` to the empty string. -/
theorem c9_contraejemplo_segmento_vacio :
    (buscarPatronDeRuta enrutadorAX.patronesDeRutas rutaASegmentoVacio).map
        (fun res => res.2) =
      some [(nombreX, [])] := by
  decide

theorem stringsSplit_ne_nil (s : GoStr) : stringsSplit s ≠ [] :=
  List.splitOnP_ne_nil _ s

theorem stringsSplit_cons_barra (t : GoStr) :
    stringsSplit ('/' :: t) = [] :: stringsSplit t := by
  simp [stringsSplit, List.splitOn]

theorem barra_no_en_stringsSplit (s : GoStr) : ∀ x ∈ stringsSplit s, '/' ∉ x := by
  induction s with
  | nil =>
      intro x hx
      simp [stringsSplit, List.splitOn] at hx
      simp [hx]
  | cons c cs ih =>
      intro x hx
      by_cases hc : c = '/'
      · subst hc
        rw [stringsSplit_cons_barra] at hx
        rcases List.mem_cons.mp hx with rfl | hx'
        · simp
        · exact ih x hx'
      · have hsplit : stringsSplit (c :: cs) = (stringsSplit cs).modifyHead (c :: ·) := by
          simp [stringsSplit, List.splitOn, List.splitOnP_cons, hc]
        rw [hsplit] at hx
        cases hsc : stringsSplit cs with
        | nil => exact absurd hsc (stringsSplit_ne_nil cs)
        | cons cabeza cola =>
            rw [hsc, List.modifyHead_cons] at hx
            rcases List.mem_cons.mp hx with rfl | hx'
            · intro hmem
              rcases List.mem_cons.mp hmem with hbar | hmem'
              · exact hc hbar.symm
              · exact ih cabeza (hsc ▸ List.mem_cons_self cabeza cola) hmem'
            · exact ih x (hsc ▸ List.mem_cons_of_mem cabeza hx')

theorem stringsSplit_stringsJoin (l : List GoStr) (hne : l ≠ [])
    (hsf : ∀ x ∈ l, '/' ∉ x) : stringsSplit (stringsJoin l barra) = l := by
  simpa [stringsSplit, stringsJoin, barra] using
    List.splitOn_intercalate l '/' hsf hne

theorem quitarPrimeroVacio_map (g : GoStr → GoStr) (hg : ∀ x, g x = [] ↔ x = [])
    (l : List GoStr) : quitarPrimeroVacio (l.map g) = (quitarPrimeroVacio l).map g := by
  cases l with
  | nil => simp [quitarPrimeroVacio]
  | cons x xs =>
      by_cases hx : x = []
      · subst hx
        have hgx : g [] = [] := (hg []).mpr rfl
        simp [quitarPrimeroVacio, hgx]
      · have hgx : ¬ g x = [] := fun h => hx ((hg x).mp h)
        simp [quitarPrimeroVacio, hx, hgx]

theorem quitarUltimoVacio_map (g : GoStr → GoStr) (hg : ∀ x, g x = [] ↔ x = [])
    (l : List GoStr) : quitarUltimoVacio (l.map g) = (quitarUltimoVacio l).map g := by
  cases hl : l.getLast? with
  | none =>
      have hnil : l = [] := List.getLast?_eq_none_iff.mp hl
      subst hnil
      simp [quitarUltimoVacio]
  | some x =>
      have hmap : (l.map g).getLast? = some (g x) := by
        rw [List.getLast?_map, hl]
        rfl
      by_cases hx : x = []
      · subst hx
        have hgx : g [] = [] := (hg []).mpr rfl
        simp only [quitarUltimoVacio, hl, hmap, hgx]
        simp [List.map_dropLast]
      · have hgx : ¬ g x = [] := fun h => hx ((hg x).mp h)
        simp only [quitarUltimoVacio, hl, hmap]
        simp [hx, hgx]

theorem recortarPartes_map (g : GoStr → GoStr) (hg : ∀ x, g x = [] ↔ x = [])
    (l : List GoStr) : recortarPartes (l.map g) = (recortarPartes l).map g := by
  rw [recortarPartes, recortarPartes, quitarPrimeroVacio_map g hg l,
    quitarUltimoVacio_map g hg _]

/-! ### C10 — nil terminal handler -/

/-- C10: composing any interceptor list, empty or not, with a nil terminal
handler yields nil — the Go guard skips the whole loop, so no interceptor
function is applied. -/
theorem c10_cadena_con_manejador_nulo :
    ∀ (α : Type) (funciones : List (α → α)), Ejecutar funciones none = none :=
  fun _ _ => rfl

theorem parteCoincide_refl (x : GoStr) : parteCoincide x x = true := by
  simp [parteCoincide]

theorem parteCoincide_patronVariable (parte : GoStr) :
    parteCoincide patronVariable parte = true := by
  by_cases h : patronVariable = parte <;> simp [parteCoincide, h]

theorem compilarPartes_ok {l : List GoStr} {i : Nat} {partes : List GoStr}
    {vars : List VariableDePatronDeRuta}
    (h : compilarPartes l i = .ok (partes, vars)) :
    partes = l.map parteCompilada ∧
    ∀ v ∈ vars, ∃ j, j < l.length ∧ v.posicion = i + j ∧
      (stringsToLower (stringsTrim (l.getD j []))).contains '{' = true ∧
      v.nombre = nombreDeParte (l.getD j []) := by
  induction l generalizing i partes vars with
  | nil =>
      rw [compilarPartes] at h
      simp at h
      obtain ⟨rfl, rfl⟩ := h
      simp
  | cons parte resto ih =>
      rw [compilarPartes] at h
      by_cases h1 : (stringsToLower (stringsTrim parte)).contains '{' = false
      · rw [if_pos h1] at h
        cases hrec : compilarPartes resto (i + 1) with
        | error e => rw [hrec] at h; exact absurd h (by simp)
        | ok par =>
            obtain ⟨ps, vs⟩ := par
            rw [hrec] at h
            simp at h
            obtain ⟨hp, rfl⟩ := h
            obtain ⟨hmapa, hvs⟩ := ih hrec
            subst hp
            constructor
            · have h1m : '{' ∉ stringsToLower (stringsTrim parte) := by simpa using h1
              have hcomp : parteCompilada parte = stringsToLower (stringsTrim parte) := by
                simp [parteCompilada, h1m]
              rw [List.map_cons, hcomp, hmapa]
            · intro v hv
              obtain ⟨j, hj, hpos, hcon, hnom⟩ := hvs v hv
              exact ⟨j + 1, by simpa using hj, by omega, by simpa using hcon,
                by simpa using hnom⟩
      · rw [if_neg h1] at h
        have h1' : (stringsToLower (stringsTrim parte)).contains '{' = true := by
          revert h1
          cases (stringsToLower (stringsTrim parte)).contains '{' <;> simp
        by_cases h2 : (stringsToLower (stringsTrim parte)).length = 2
        · rw [if_pos h2] at h
          exact absurd h (by simp)
        · rw [if_neg h2] at h
          by_cases h3 : (stringsToLower (stringsTrim parte)).contains '}' = false
          · rw [if_pos h3] at h
            exact absurd h (by simp)
          · rw [if_neg h3] at h
            cases hrec : compilarPartes resto (i + 1) with
            | error e => rw [hrec] at h; exact absurd h (by simp)
            | ok par =>
                obtain ⟨ps, vs⟩ := par
                rw [hrec] at h
                simp at h
                obtain ⟨hp, hv⟩ := h
                obtain ⟨hmapa, hvs⟩ := ih hrec
                subst hp
                subst hv
                constructor
                · have h1m : '{' ∈ stringsToLower (stringsTrim parte) := by simpa using h1'
                  have hcomp : parteCompilada parte = patronVariable := by
                    simp [parteCompilada, h1m]
                  rw [List.map_cons, hcomp, hmapa]
                · intro v hv'
                  rcases List.mem_cons.mp hv' with rfl | hmem
                  · exact ⟨0, by simp, by simp, by simpa using h1', by simp [nombreDeParte]⟩
                  · obtain ⟨j, hj, hpos, hcon, hnom⟩ := hvs v hmem
                    exact ⟨j + 1, by simpa using hj, by omega, by simpa using hcon,
                      by simpa using hnom⟩

theorem rutaAPatronDeRuta_ok {s pr : GoStr} {vars : List VariableDePatronDeRuta}
    (h : rutaAPatronDeRuta s = .ok (pr, vars)) :
    compilarPartes (recortarPartes (stringsSplit s)) 0 =
      .ok ((recortarPartes (stringsSplit s)).map parteCompilada, vars) ∧
    pr = '/' :: stringsJoin ((recortarPartes (stringsSplit s)).map parteCompilada) barra := by
  rw [rutaAPatronDeRuta] at h
  by_cases hs : s = []
  · rw [if_pos hs] at h
    exact absurd h (by simp)
  · rw [if_neg hs] at h
    cases hcomp : compilarPartes (recortarPartes (stringsSplit s)) 0 with
    | error e => rw [hcomp] at h; exact absurd h (by simp)
    | ok par =>
        obtain ⟨partesC, vs⟩ := par
        rw [hcomp] at h
        simp at h
        obtain ⟨hpr, rfl⟩ := h
        obtain ⟨hmapa, _⟩ := compilarPartes_ok hcomp
        subst hmapa
        exact ⟨rfl, hpr.symm⟩

theorem nuevoEndpoint_fresco {H : Type} (metodo ruta : GoStr) (funcion : H)
    {pr : GoStr} {vars : List VariableDePatronDeRuta}
    (hpat : rutaAPatronDeRuta ruta = .ok (pr, vars)) :
    nuevoEndpoint (CrearEnrutador H) metodo ruta funcion =
      .ok { cors := (CrearEnrutador H).cors,
            patronesDeRutas := [(pr, detalleFresco metodo funcion vars)] } := by
  rw [nuevoEndpoint, hpat]
  simp [CrearEnrutador, mapGet, mapSet, detalleFresco]

theorem sustituirParte_vacia (σ : GoStr → GoStr) (hσ : ∀ n, σ n ≠ [] ∧ '/' ∉ σ n) :
    ∀ x, sustituirParte σ x = [] ↔ x = [] := by
  intro x
  constructor
  · intro h
    by_cases hc : (stringsToLower (stringsTrim x)).contains '{' = true
    · rw [sustituirParte, if_pos hc] at h
      exact absurd h (hσ _).1
    · rw [sustituirParte, if_neg hc] at h
      exact h
  · intro h
    subst h
    rw [sustituirParte, if_neg (by decide)]

theorem recortarPartes_subset {l : List GoStr} : ∀ x ∈ recortarPartes l, x ∈ l := by
  intro x hx
  rw [recortarPartes, quitarUltimoVacio] at hx
  have h1 : x ∈ quitarPrimeroVacio l := by
    by_cases hc : (quitarPrimeroVacio l).getLast? = some []
    · rw [if_pos hc] at hx
      exact (List.dropLast_sublist _).subset hx
    · rw [if_neg hc] at hx
      exact hx
  rw [quitarPrimeroVacio] at h1
  by_cases hc2 : l.head? = some []
  · rw [if_pos hc2] at h1
    exact (List.tail_sublist l).subset h1
  · rw [if_neg hc2] at h1
    exact h1

theorem mapGet_foldl_variables (partesRuta : List GoStr) (σ : GoStr → GoStr) :
    ∀ (vars : List VariableDePatronDeRuta) (m0 : List (GoStr × GoStr)),
      (∀ v ∈ vars, partesRuta.getD v.posicion [] = σ v.nombre) →
      (∀ k w, mapGet m0 k = some w → w = σ k) →
      (∀ k w, mapGet (vars.foldl
          (fun m v => mapSet m v.nombre (partesRuta.getD v.posicion [])) m0) k = some w →
        w = σ k) ∧
      (∀ k, (mapGet m0 k).isSome → (mapGet (vars.foldl
          (fun m v => mapSet m v.nombre (partesRuta.getD v.posicion [])) m0) k).isSome) ∧
      (∀ v ∈ vars, (mapGet (vars.foldl
          (fun m v => mapSet m v.nombre (partesRuta.getD v.posicion [])) m0)
          v.nombre).isSome) := by
  intro vars
  induction vars with
  | nil =>
      intro m0 hval hm0
      exact ⟨hm0, fun k h => h, by simp⟩
  | cons v vs ih =>
      intro m0 hval hm0
      have hv0 : partesRuta.getD v.posicion [] = σ v.nombre :=
        hval v (List.mem_cons_self v vs)
      have hm1 : ∀ k w,
          mapGet (mapSet m0 v.nombre (partesRuta.getD v.posicion [])) k = some w →
          w = σ k := by
        intro k w hw
        by_cases hk : k = v.nombre
        · subst hk
          rw [mapGet_mapSet_self] at hw
          exact (Option.some.inj hw) ▸ hv0
        · rw [mapGet_mapSet_of_ne m0 v.nombre k _ hk] at hw
          exact hm0 k w hw
      have hpres1 : ∀ k, (mapGet m0 k).isSome →
          (mapGet (mapSet m0 v.nombre (partesRuta.getD v.posicion [])) k).isSome := by
        intro k hk
        by_cases hkv : k = v.nombre
        · subst hkv
          rw [mapGet_mapSet_self]
          rfl
        · rw [mapGet_mapSet_of_ne m0 v.nombre k _ hkv]
          exact hk
      obtain ⟨ihA, ihB, ihC⟩ := ih (mapSet m0 v.nombre (partesRuta.getD v.posicion []))
        (fun u hu => hval u (List.mem_cons_of_mem v hu)) hm1
      simp only [List.foldl_cons]
      refine ⟨ihA, fun k hk => ihB k (hpres1 k hk), ?_⟩
      intro u hu
      rcases List.mem_cons.mp hu with rfl | hmem
      · refine ihB u.nombre ?_
        rw [mapGet_mapSet_self]
        rfl
      · exact ihC u hmem

theorem mapGet_construirVariables (vars : List VariableDePatronDeRuta)
    (partesRuta : List GoStr) (σ : GoStr → GoStr)
    (hval : ∀ v ∈ vars, partesRuta.getD v.posicion [] = σ v.nombre) :
    ∀ v ∈ vars, mapGet (construirVariables vars partesRuta) v.nombre =
      some (σ v.nombre) := by
  obtain ⟨hA, _, hC⟩ := mapGet_foldl_variables partesRuta σ vars [] hval
    (by intro k w hw; simp [mapGet] at hw)
  intro v hv
  obtain ⟨w, hw⟩ := Option.isSome_iff_exists.mp (hC v hv)
  have hfin : mapGet (construirVariables vars partesRuta) v.nombre = some w := hw
  rw [hfin, hA v.nombre w hw]

/-- C3 (amended): for every template that compiles, has at least one
segment, and whose literal segments are already lower-case and trimmed,
registering it in a fresh router and then matching the path obtained by
substituting, for each placeholder, a non-empty value containing no `/`,
returns a match on that pattern whose variable map binds each recorded
placeholder name to exactly its substituted value. -/
theorem c3_compilar_registrar_coincidir {H : Type} (s pr : GoStr)
    (vars : List VariableDePatronDeRuta) (metodo : GoStr) (funcion : H)
    (σ : GoStr → GoStr)
    (hpat : rutaAPatronDeRuta s = .ok (pr, vars))
    (hnorm : ∀ parte ∈ recortarPartes (stringsSplit s),
        (stringsToLower (stringsTrim parte)).contains '{' = false →
        stringsToLower (stringsTrim parte) = parte)
    (hσ : ∀ nombre, σ nombre ≠ [] ∧ '/' ∉ σ nombre)
    (hne : recortarPartes (stringsSplit s) ≠ []) :
    ∃ (o' : Enrutador H) (detalle : PatronDeRutaDetalle H) (m : List (GoStr × GoStr)),
      nuevoEndpoint (CrearEnrutador H) metodo s funcion = .ok o' ∧
      buscarPatronDeRuta o'.patronesDeRutas (sustituirRuta s σ) = some (detalle, m) ∧
      detalle.variablesDeRuta = vars ∧
      ∀ v ∈ vars, mapGet m v.nombre = some (σ v.nombre) := by
  obtain ⟨hcomp, hpr⟩ := rutaAPatronDeRuta_ok hpat
  have hreg := nuevoEndpoint_fresco metodo s funcion hpat
  have hgck : ∀ x, sustituirParte σ x = [] ↔ x = [] := sustituirParte_vacia σ hσ
  have hpathsplit : stringsSplit (sustituirRuta s σ) =
      (stringsSplit s).map (sustituirParte σ) := by
    apply stringsSplit_stringsJoin
    · intro hnil
      exact stringsSplit_ne_nil s (List.map_eq_nil_iff.mp hnil)
    · intro y hy
      obtain ⟨x, hx, rfl⟩ := List.mem_map.mp hy
      by_cases hc : (stringsToLower (stringsTrim x)).contains '{' = true
      · rw [sustituirParte, if_pos hc]
        exact (hσ _).2
      · rw [sustituirParte, if_neg hc]
        exact barra_no_en_stringsSplit s x hx
  have hreq : recortarPartes (stringsSplit (sustituirRuta s σ)) =
      (recortarPartes (stringsSplit s)).map (sustituirParte σ) := by
    rw [hpathsplit, recortarPartes_map _ hgck]
  have hpatparts : (stringsSplit pr).tail =
      (recortarPartes (stringsSplit s)).map parteCompilada := by
    rw [hpr, stringsSplit_cons_barra, List.tail_cons]
    apply stringsSplit_stringsJoin
    · intro hnil
      exact hne (List.map_eq_nil_iff.mp hnil)
    · intro y hy
      obtain ⟨x, hx, rfl⟩ := List.mem_map.mp hy
      by_cases hc : (stringsToLower (stringsTrim x)).contains '{' = true
      · rw [parteCompilada, if_pos hc]
        decide
      · have hc' : (stringsToLower (stringsTrim x)).contains '{' = false := by
          revert hc
          cases (stringsToLower (stringsTrim x)).contains '{' <;> simp
        rw [parteCompilada, if_neg hc, hnorm x hx hc']
        exact barra_no_en_stringsSplit s x (recortarPartes_subset x hx)
  have hcoinc : coincidenPartes ((recortarPartes (stringsSplit s)).map parteCompilada)
      ((recortarPartes (stringsSplit s)).map (sustituirParte σ)) = true := by
    rw [coincidenPartes, List.zip_map', List.all_eq_true]
    intro par hpar
    obtain ⟨x, hx, rfl⟩ := List.mem_map.mp hpar
    by_cases hc : (stringsToLower (stringsTrim x)).contains '{' = true
    · have h1 : parteCompilada x = patronVariable := by
        rw [parteCompilada, if_pos hc]
      show parteCoincide (parteCompilada x) (sustituirParte σ x) = true
      rw [h1]
      exact parteCoincide_patronVariable _
    · have hc' : (stringsToLower (stringsTrim x)).contains '{' = false := by
        revert hc
        cases (stringsToLower (stringsTrim x)).contains '{' <;> simp
      have h1 : parteCompilada x = x := by
        rw [parteCompilada, if_neg hc]
        exact hnorm x hx hc'
      have h2 : sustituirParte σ x = x := by
        rw [sustituirParte, if_neg hc]
      show parteCoincide (parteCompilada x) (sustituirParte σ x) = true
      rw [h1, h2]
      exact parteCoincide_refl x
  have hbuscar : buscarPatronDeRuta [(pr, detalleFresco metodo funcion vars)]
      (sustituirRuta s σ) =
      some (detalleFresco metodo funcion vars,
        construirVariables vars
          ((recortarPartes (stringsSplit s)).map (sustituirParte σ))) := by
    rw [buscarPatronDeRuta, hreq, buscarEnLista]
    rw [hpatparts]
    rw [if_pos ?hcond]
    case hcond =>
      simp [hcoinc]
    rfl
  have hval : ∀ v ∈ vars,
      ((recortarPartes (stringsSplit s)).map (sustituirParte σ)).getD v.posicion [] =
        σ v.nombre := by
    intro v hv
    obtain ⟨_, hvars⟩ := compilarPartes_ok hcomp
    obtain ⟨j, hj, hpos, hcon, hnom⟩ := hvars v hv
    have hpos' : v.posicion = j := by omega
    rw [hpos']
    rw [List.getD_eq_getElem?_getD, List.getElem?_map]
    rw [List.getElem?_eq_getElem hj]
    simp only [Option.map_some', Option.getD_some]
    have hgd : (recortarPartes (stringsSplit s)).getD j [] =
        (recortarPartes (stringsSplit s))[j] := by
      rw [List.getD_eq_getElem?_getD, List.getElem?_eq_getElem hj]
      rfl
    rw [sustituirParte, if_pos ?hc]
    case hc =>
      rw [← hgd]
      exact hcon
    rw [← hgd, ← hnom]
  exact ⟨_, detalleFresco metodo funcion vars,
    construirVariables vars ((recortarPartes (stringsSplit s)).map (sustituirParte σ)),
    hreg, hbuscar, rfl, mapGet_construirVariables vars _ σ hval⟩

/-- C3 witness: the amended theorem at the template `/items/{id}` with the
value `5` substituted for the placeholder. -/
theorem c3_testigo_roundtrip :
    ∃ (o' : Enrutador Nat) (detalle : PatronDeRutaDetalle Nat) (m : List (GoStr × GoStr)),
      nuevoEndpoint (CrearEnrutador Nat) gGET plantillaItemsId 1 = .ok o' ∧
      buscarPatronDeRuta o'.patronesDeRutas
        (sustituirRuta plantillaItemsId (fun _ => valorCinco)) = some (detalle, m) ∧
      detalle.variablesDeRuta = [⟨1, nombreId⟩] ∧
      ∀ v ∈ [(⟨1, nombreId⟩ : VariableDePatronDeRuta)],
        mapGet m v.nombre = some valorCinco :=
  c3_compilar_registrar_coincidir plantillaItemsId patronItemsV
    [⟨1, nombreId⟩] gGET 1 (fun _ => valorCinco)
    (by decide) (by decide) (fun n =>
      ⟨by show valorCinco ≠ []; decide, by show '/' ∉ valorCinco; decide⟩)
    (by decide)

/-- C3 counterexample: the claim quantifies over every valid template and
every non-empty substituted value, but the code lower-cases literal
segments at compile time while matching the request path verbatim: the
valid template `/Items/{id}` compiles to the canonical pattern
`/items/{v}`, and the path `/Items/5` — obtained from the template by
substituting `5` for the placeholder — does not match it, so no match is
returned at all (values containing `/` fail in the same way by changing
the segment count). -/
theorem c3_contraejemplo_mayusculas :
    rutaAPatronDeRuta plantillaItemsIdMayuscula =
      .ok (patronItemsV, [⟨1, nombreId⟩]) ∧
    sustituirRuta plantillaItemsIdMayuscula (fun _ => valorCinco) =
      rutaItemsCincoMayuscula ∧
    buscarPatronDeRuta enrutadorMayusculas.patronesDeRutas
      rutaItemsCincoMayuscula = none := by
  refine ⟨by decide, by decide, by decide⟩

end Apirest
